import Mathlib

/-!
Verification development for the Solana transaction-history fetcher
(`src/index.js` and the richer variant `src/unnamed/part_000`).

The embedding models:
  * `includes`              — JS `String.prototype.includes` (substring test);
  * `fetchTransactionWithBackoff` — the resilient fetch loop with exponential
    backoff (base 500 ms, doubling, 16 s cap, `attempt > 10` hard stop);
  * `normalize`             — the transaction normalizer of `part_000`
    (building a `SimplifiedTransaction`, JS truthiness included);
  * `processSignatures` / `getTransactions` — the per-signature loop with the
    100-record cap, per-signature catch, and the listing / validation phases.

External effects (network calls, sleeps, console logging) are reified into
explicit traces so that the spec's claims about attempt counts, delays,
call counts and logging become provable statements.
-/

namespace TxFetch

/-- Result of one call to `connection.getParsedTransaction`: the promise either
resolves (possibly with JS `null`, modelled by `Option.none`) or rejects with an
`Error` carrying a message string. -/
inductive FetchResult (α : Type) where
  | ok : Option α → FetchResult α
  | err : String → FetchResult α
deriving DecidableEq, Repr

/-- What `fetchTransactionWithBackoff` does overall: return a value (possibly
`null`) or propagate an error (JS `throw error`). -/
inductive BackoffOutcome (α : Type) where
  | value : Option α → BackoffOutcome α
  | thrown : String → BackoffOutcome α
deriving DecidableEq, Repr

/-- The observable behaviour of one run of `fetchTransactionWithBackoff`:
the outcome, the attempt numbers at which `getParsedTransaction` was actually
called, and the sleeps performed (in ms, in order). -/
structure BackoffRun (α : Type) where
  result : BackoffOutcome α
  fetched : List Nat
  sleeps : List Nat
deriving DecidableEq, Repr

/-- Character-list prefix test used by `occursIn`. -/
def matchesAt : List Char → List Char → Bool
  | [], _ => true
  | _ :: _, [] => false
  | p :: ps, c :: cs => p == c && matchesAt ps cs

/-- Does `pat` occur as a contiguous sublist of `l`? -/
def occursIn (pat : List Char) : List Char → Bool
  | [] => matchesAt pat []
  | c :: t => if matchesAt pat (c :: t) then true else occursIn pat t

/-- Model of JS `s.includes(sub)`: substring containment. -/
def includes (s sub : String) : Bool :=
  occursIn sub.data s.data

/-- The literal error message the code matches to detect the
version-compatibility failure (src/index.js line 56, part_000 line 70). -/
def versionNotSupportedMsg : String :=
  "failed to get transaction: Transaction version (0) is not supported"

/-- The backoff delay computed at the top of `fetchTransactionWithBackoff`:
`Math.min(500 * 2 ** (attempt - 1), 16000)` (src/index.js line 43). -/
def backoffDelay (attempt : Nat) : Nat :=
  min (500 * 2 ^ (attempt - 1)) 16000

/-- Fuel-driven evaluator for `fetchTransactionWithBackoff`.  The source
recurses on `attempt + 1` under the guard `attempt > 10`; here the same
recursion is driven by the structurally decreasing `remaining` argument,
which the wrapper instantiates with `11 - attempt` so the fuel never runs
out before the `attempt > 10` guard fires (see
`fetchTransactionWithBackoff_eq`, which recovers the source's recurrence
verbatim). -/
def fetchBackoffGo {α : Type} (fetch : Nat → FetchResult α) :
    Nat → Nat → BackoffRun α
  | 0, _ => ⟨BackoffOutcome.value none, [], []⟩
  | r + 1, attempt =>
    let delay := backoffDelay attempt
    if 10 < attempt then
      ⟨BackoffOutcome.value none, [], []⟩
    else
      match fetch attempt with
      | FetchResult.ok t => ⟨BackoffOutcome.value t, [attempt], []⟩
      | FetchResult.err msg =>
        if includes msg versionNotSupportedMsg then
          let run := fetchBackoffGo fetch r (attempt + 1)
          ⟨run.result, attempt :: run.fetched, delay :: run.sleeps⟩
        else if includes msg "429" then
          let run := fetchBackoffGo fetch r (attempt + 1)
          ⟨run.result, attempt :: run.fetched, delay :: run.sleeps⟩
        else ⟨BackoffOutcome.thrown msg, [attempt], []⟩

/-- `fetchTransactionWithBackoff(signature, attempt)` for one fixed signature:
`fetch` gives the outcome of the detail call at each attempt number. -/
def fetchTransactionWithBackoff {α : Type} (fetch : Nat → FetchResult α)
    (attempt : Nat) : BackoffRun α :=
  fetchBackoffGo fetch (11 - attempt) attempt

/-- One entry of `meta.preTokenBalances`: the fields the normalizer reads. -/
structure TokenBalance where
  mint : Option String
  uiTokenAmountDecimals : Option Nat
deriving DecidableEq, Repr

/-- One entry of `transaction.transaction.message.instructions`: the
normalizer only reads `instructions[0]?.parsed?.type`. -/
structure Instruction where
  parsedType : Option String
deriving DecidableEq, Repr

/-- The `meta` object of a parsed transaction, restricted to the fields the
normalizer reads. -/
structure TxMeta where
  transactionHash : Option String
  fee : Option Nat
  computeUnitsConsumed : Option Nat
  preTokenBalances : List TokenBalance
deriving DecidableEq, Repr

/-- A raw parsed transaction as returned by `getParsedTransaction`, restricted
to the fields the code reads.  `blockTime` is Unix seconds or JS `null`. -/
structure RawTransaction where
  blockTime : Option Nat
  slot : Nat
  meta : TxMeta
  instructions : List Instruction
deriving DecidableEq, Repr

/-- One record of the signature listing; only `.signature` is read. -/
structure SignatureInfo where
  signature : String
deriving DecidableEq, Repr

/-- The nested `token` object of a `SimplifiedTransaction` (part_000
lines 117–125). -/
structure Token where
  uuid : Option String
  network : String
  contract_address : Option String
  name : String
  symbol : String
  decimals : Nat
  display_decimals : Nat
deriving DecidableEq, Repr

/-- The normalized output record (part_000 lines 104–126). -/
structure SimplifiedTransaction where
  uuid : Option String
  network : String
  fee : Nat
  compute_units_consumed : Nat
  timestamp : Option String
  type : String
  wallet_address : String
  transaction_hash : String
  token : Token
deriving DecidableEq, Repr

/-- Left-pad the decimal rendering of `n` with zeros to `width` digits. -/
def natPad (width n : Nat) : String :=
  let s := toString n
  String.mk (List.replicate (width - s.length) '0') ++ s

/-- Model of JS `new Date(ms).toISOString()` for a non-negative millisecond
count: proleptic-Gregorian civil date (days-to-date conversion in the style of
Howard Hinnant's `civil_from_days`) rendered as `YYYY-MM-DDTHH:mm:ss.sssZ`. -/
def jsToISOString (ms : Nat) : String :=
  let totalSeconds := ms / 1000
  let milli := ms % 1000
  let days := totalSeconds / 86400
  let secondsOfDay := totalSeconds % 86400
  let hour := secondsOfDay / 3600
  let minute := secondsOfDay % 3600 / 60
  let second := secondsOfDay % 60
  let z := days + 719468
  let era := z / 146097
  let doe := z % 146097
  let yoe := (doe - doe / 1460 + doe / 36524 - doe / 146096) / 365
  let doy := doe - (365 * yoe + yoe / 4 - yoe / 100)
  let mp := (5 * doy + 2) / 153
  let day := doy - (153 * mp + 2) / 5 + 1
  let month := if mp < 10 then mp + 3 else mp - 9
  let year := (if month ≤ 2 then yoe + 1 else yoe) + era * 400
  natPad 4 year ++ "-" ++ natPad 2 month ++ "-" ++ natPad 2 day ++ "T" ++
    natPad 2 hour ++ ":" ++ natPad 2 minute ++ ":" ++ natPad 2 second ++
    "." ++ natPad 3 milli ++ "Z"

/-- JS `x || dflt` for an optional string `x`: `undefined`/`null` and the
empty string are falsy. -/
def jsStringOr (x : Option String) (dflt : String) : String :=
  match x with
  | some s => if s = "" then dflt else s
  | none => dflt

/-- JS `x || null` for an optional string `x`: the empty string collapses to
`null`. -/
def jsStringOrNull (x : Option String) : Option String :=
  match x with
  | some s => if s = "" then none else some s
  | none => none

/-- JS `x || 0` for an optional number `x` (non-negative in this model):
`undefined`/`null` and `0` both yield `0`. -/
def jsNatOr0 (x : Option Nat) : Nat :=
  x.getD 0

/-- The normalizer of part_000 (lines 98–126): builds the
`simplifiedTransaction` object from a fetched raw transaction. -/
def normalize (transaction : RawTransaction) (walletAddress : String)
    (signatureInfo : SignatureInfo) : SimplifiedTransaction :=
  let meta := transaction.meta
  let preTokenBalances0 := meta.preTokenBalances.head?
  { uuid := meta.transactionHash
    network := "Solana"
    fee := jsNatOr0 meta.fee
    compute_units_consumed := jsNatOr0 meta.computeUnitsConsumed
    timestamp :=
      match transaction.blockTime with
      | some bt =>
        if bt = 0 then none else some (jsToISOString (bt * 1000))
      | none => none
    type := jsStringOr (transaction.instructions.head?.bind
      (fun i => i.parsedType)) "unknown"
    wallet_address := walletAddress
    transaction_hash := signatureInfo.signature
    token :=
      { uuid := jsStringOrNull (preTokenBalances0.bind (fun b => b.mint))
        network := "Solana"
        contract_address :=
          jsStringOrNull (preTokenBalances0.bind (fun b => b.mint))
        name := "solana"
        symbol := "sol"
        decimals := jsNatOr0 (preTokenBalances0.bind
          (fun b => b.uiTokenAmountDecimals))
        display_decimals := 2 } }

/-- Trace of one run of the per-signature loop: every `getParsedTransaction`
call as a (signature, attempt) pair, every sleep, every per-signature error
caught and logged by the `catch` block, and the number of listed signatures
the loop actually consumed before terminating. -/
structure LoopTrace where
  fetchCalls : List (String × Nat)
  sleeps : List Nat
  caught : List (String × String)
  processed : Nat
deriving DecidableEq, Repr

/-- The per-signature loop of `getTransactions` (part_000 lines 91–140):
fetch each signature with backoff, skip `null` results, normalize and append
successes, break once 100 records are collected, and catch (log) per-signature
errors without aborting the loop. -/
def processSignatures (fetch : String → Nat → FetchResult RawTransaction)
    (walletAddress : String) :
    List SignatureInfo → List SimplifiedTransaction →
    List SimplifiedTransaction × LoopTrace
  | [], acc => (acc, ⟨[], [], [], 0⟩)
  | s :: rest, acc =>
    let run := fetchTransactionWithBackoff (fetch s.signature) 1
    let calls := run.fetched.map (fun a => (s.signature, a))
    match run.result with
    | BackoffOutcome.thrown msg =>
      let next := processSignatures fetch walletAddress rest acc
      (next.1, ⟨calls ++ next.2.fetchCalls, run.sleeps ++ next.2.sleeps,
        (s.signature, msg) :: next.2.caught, next.2.processed + 1⟩)
    | BackoffOutcome.value none =>
      let next := processSignatures fetch walletAddress rest acc
      (next.1, ⟨calls ++ next.2.fetchCalls, run.sleeps ++ next.2.sleeps,
        next.2.caught, next.2.processed + 1⟩)
    | BackoffOutcome.value (some t) =>
      let acc2 := acc ++ [normalize t walletAddress s]
      if 100 ≤ acc2.length then (acc2, ⟨calls, run.sleeps, [], 1⟩)
      else
        let next := processSignatures fetch walletAddress rest acc2
        (next.1, ⟨calls ++ next.2.fetchCalls, run.sleeps ++ next.2.sleeps,
          next.2.caught, next.2.processed + 1⟩)

/-- Errors thrown by `getTransactions` itself (part_000 lines 41 and 52). -/
inductive GetTransactionsError where
  | invalidAddress
  | signatureFetchFailed
deriving DecidableEq, Repr

/-- Trace of one `getTransactions` request: how many times the listing call
`getSignaturesForAddress` was issued, plus the loop trace. -/
structure RequestTrace where
  listCalls : Nat
  loopTrace : LoopTrace
deriving DecidableEq, Repr

/-- `getTransactions` of part_000 (lines 39–143).  `isValid` models
`isValidSolanaPublicKey`; `listOutcome` is the outcome of the single
`getSignaturesForAddress` call (only consulted if that call is issued);
`fetch` gives, per signature and attempt, the outcome of
`getParsedTransaction`. -/
def getTransactions (isValid : String → Bool)
    (listOutcome : Except String (List SignatureInfo))
    (fetch : String → Nat → FetchResult RawTransaction)
    (walletAddress : String) :
    Except GetTransactionsError (List SimplifiedTransaction) × RequestTrace :=
  if !isValid walletAddress then
    (Except.error GetTransactionsError.invalidAddress, ⟨0, ⟨[], [], [], 0⟩⟩)
  else
    match listOutcome with
    | Except.error _ =>
      (Except.error GetTransactionsError.signatureFetchFailed,
        ⟨1, ⟨[], [], [], 0⟩⟩)
    | Except.ok signatures =>
      let res := processSignatures fetch walletAddress signatures []
      (Except.ok res.1, ⟨1, res.2⟩)

/-- The per-signature outcome seen by the loop: `some` normalized record when
the backoff fetch returns a transaction, `none` when it returns `null` or
throws (in which case the loop appends nothing for that signature). -/
def signatureOutcome (fetch : String → Nat → FetchResult RawTransaction)
    (walletAddress : String) (s : SignatureInfo) :
    Option SimplifiedTransaction :=
  match (fetchTransactionWithBackoff (fetch s.signature) 1).result with
  | BackoffOutcome.value (some t) => some (normalize t walletAddress s)
  | _ => none

/-- The `or` of the two transient-error tests the catch block performs, in
source order: version-mismatch first, then rate limiting. -/
def retriable (msg : String) : Bool :=
  includes msg versionNotSupportedMsg || includes msg "429"

/-- Concrete raw transaction used by witnesses: block time 1700000000
(2023-11-14T22:13:20Z), one pre-token balance, one parsed instruction. -/
def sampleRaw : RawTransaction :=
  ⟨some 1700000000, 5,
    ⟨none, some 5000, some 200,
      [⟨some "So11111111111111111111111111111111111111112", some 9⟩]⟩,
    [⟨some "transfer"⟩]⟩

/-- Concrete raw transaction with no block time. -/
def sampleRawNoTime : RawTransaction := ⟨none, 5, ⟨none, none, none, []⟩, []⟩

/-- Concrete raw transaction whose block time is the Unix epoch second 0
(a falsy value in JS). -/
def sampleRawTime0 : RawTransaction := ⟨some 0, 5, ⟨none, none, none, []⟩, []⟩

/-- Oracle that rejects every attempt with the version-not-supported
message. -/
def alwaysVersionErr : Nat → FetchResult RawTransaction :=
  fun _ => FetchResult.err versionNotSupportedMsg

/-- Oracle that rejects attempts 1 and 2 with a 429 message and succeeds on
attempt 3. -/
def sample429Fetch : Nat → FetchResult RawTransaction :=
  fun n => if n < 3 then FetchResult.err "429" else FetchResult.ok (some sampleRaw)

/-- Oracle that rejects every attempt with a non-transient message. -/
def sampleBoomFetch : Nat → FetchResult RawTransaction :=
  fun _ => FetchResult.err "boom"

/-- Per-signature oracle for which every detail fetch immediately succeeds
with `sampleRaw`. -/
def fetchAllOk : String → Nat → FetchResult RawTransaction :=
  fun _ _ => FetchResult.ok (some sampleRaw)

/-- Per-signature oracle for which every detail fetch resolves to `null`. -/
def fetchAllNull : String → Nat → FetchResult RawTransaction :=
  fun _ _ => FetchResult.ok none

/-- One hundred distinct listed signatures, used to exercise the
100-record cap. -/
def samplePre : List SignatureInfo :=
  (List.range 100).map (fun i => ⟨toString i⟩)

/-- The loop run on 101 signatures (100 plus one extra), every fetch
succeeding. -/
def sampleLoop : List SimplifiedTransaction × LoopTrace :=
  processSignatures fetchAllOk "w" (samplePre ++ [⟨"extra"⟩]) []

theorem fetch_backoff_exhaust {α : Type} (fetch : Nat → FetchResult α)
    (attempt : Nat) (h : 10 < attempt) :
    fetchTransactionWithBackoff fetch attempt =
      ⟨BackoffOutcome.value none, [], []⟩ := by
  show fetchBackoffGo fetch (11 - attempt) attempt = _
  have h0 : 11 - attempt = 0 := by omega
  rw [h0, fetchBackoffGo]

/-- The fuel-driven evaluator satisfies, verbatim, the recursion of the
source's `fetchTransactionWithBackoff` (src/index.js lines 42–74). -/
theorem fetchTransactionWithBackoff_eq {α : Type} (fetch : Nat → FetchResult α)
    (attempt : Nat) :
    fetchTransactionWithBackoff fetch attempt =
      if 10 < attempt then ⟨BackoffOutcome.value none, [], []⟩
      else
        match fetch attempt with
        | FetchResult.ok t => ⟨BackoffOutcome.value t, [attempt], []⟩
        | FetchResult.err msg =>
          if includes msg versionNotSupportedMsg then
            let run := fetchTransactionWithBackoff fetch (attempt + 1)
            ⟨run.result, attempt :: run.fetched,
              backoffDelay attempt :: run.sleeps⟩
          else if includes msg "429" then
            let run := fetchTransactionWithBackoff fetch (attempt + 1)
            ⟨run.result, attempt :: run.fetched,
              backoffDelay attempt :: run.sleeps⟩
          else ⟨BackoffOutcome.thrown msg, [attempt], []⟩ := by
  by_cases h : 10 < attempt
  · rw [fetch_backoff_exhaust fetch attempt h, if_pos h]
  · have h1 : 11 - attempt = (11 - (attempt + 1)) + 1 := by omega
    show fetchBackoffGo fetch (11 - attempt) attempt = _
    rw [h1, fetchBackoffGo, if_neg h, if_neg h]
    rfl

theorem fetch_backoff_ok {α : Type} {fetch : Nat → FetchResult α}
    {attempt : Nat} {t : Option α} (ha : attempt ≤ 10)
    (hf : fetch attempt = FetchResult.ok t) :
    fetchTransactionWithBackoff fetch attempt =
      ⟨BackoffOutcome.value t, [attempt], []⟩ := by
  rw [fetchTransactionWithBackoff_eq, if_neg (by omega), hf]

theorem fetch_backoff_retry {α : Type} {fetch : Nat → FetchResult α}
    {attempt : Nat} {msg : String} (ha : attempt ≤ 10)
    (hf : fetch attempt = FetchResult.err msg)
    (hm : retriable msg = true) :
    fetchTransactionWithBackoff fetch attempt =
      ⟨(fetchTransactionWithBackoff fetch (attempt + 1)).result,
        attempt :: (fetchTransactionWithBackoff fetch (attempt + 1)).fetched,
        backoffDelay attempt ::
          (fetchTransactionWithBackoff fetch (attempt + 1)).sleeps⟩ := by
  rw [fetchTransactionWithBackoff_eq, if_neg (by omega), hf]
  rcases Bool.or_eq_true_iff.mp hm with hv | h429
  · simp [hv]
  · by_cases hv : includes msg versionNotSupportedMsg <;> simp [hv, h429]

theorem fetch_backoff_throw {α : Type} {fetch : Nat → FetchResult α}
    {attempt : Nat} {msg : String} (ha : attempt ≤ 10)
    (hf : fetch attempt = FetchResult.err msg)
    (hm : retriable msg = false) :
    fetchTransactionWithBackoff fetch attempt =
      ⟨BackoffOutcome.thrown msg, [attempt], []⟩ := by
  rw [fetchTransactionWithBackoff_eq, if_neg (by omega), hf]
  rcases Bool.or_eq_false_iff.mp hm with ⟨hv, h429⟩
  simp [hv, h429]


theorem processSignatures_results (fetch : String → Nat → FetchResult RawTransaction)
    (w : String) (sigs : List SignatureInfo) :
    ∀ acc : List SimplifiedTransaction, acc.length < 100 →
    (processSignatures fetch w sigs acc).1 =
      (acc ++ sigs.filterMap (signatureOutcome fetch w)).take 100 := by
  induction sigs with
  | nil =>
    intro acc h
    simp [processSignatures]
    omega
  | cons s rest ih =>
    intro acc h
    rw [processSignatures.eq_2]
    rcases hr : (fetchTransactionWithBackoff (fetch s.signature) 1).result with t | msg
    · rcases t with _ | t
      · have hso : signatureOutcome fetch w s = none := by
          simp [signatureOutcome, hr]
        dsimp only
        simp only [List.filterMap_cons, hso]
        exact ih acc h
      · have hso : signatureOutcome fetch w s = some (normalize t w s) := by
          simp [signatureOutcome, hr]
        dsimp only
        simp only [List.filterMap_cons, hso]
        by_cases h100 : 100 ≤ (acc ++ [normalize t w s]).length
        · rw [if_pos h100]
          have hlen : (acc ++ [normalize t w s]).length = 100 := by
            simp at h100 ⊢; omega
          rw [show acc ++ normalize t w s :: rest.filterMap (signatureOutcome fetch w) =
            (acc ++ [normalize t w s]) ++ rest.filterMap (signatureOutcome fetch w) by simp]
          rw [List.take_append_eq_append_take, hlen]
          simp [List.take_of_length_le (le_of_eq hlen)]
        · rw [if_neg h100]
          have h2 : (acc ++ [normalize t w s]).length < 100 := by omega
          rw [ih _ h2]
          congr 1
          simp
    · have hso : signatureOutcome fetch w s = none := by
        simp [signatureOutcome, hr]
      dsimp only
      simp only [List.filterMap_cons, hso]
      exact ih acc h

theorem processSignatures_processed (fetch : String → Nat → FetchResult RawTransaction)
    (w : String) (post : List SignatureInfo) (pre : List SignatureInfo) :
    ∀ acc : List SimplifiedTransaction, acc.length < 100 →
    100 ≤ acc.length + (pre.filterMap (signatureOutcome fetch w)).length →
    (processSignatures fetch w (pre ++ post) acc).2.processed ≤ pre.length := by
  induction pre with
  | nil =>
    intro acc h h100
    simp at h100
    omega
  | cons s pre' ih =>
    intro acc h h100
    rw [List.cons_append, processSignatures.eq_2]
    rcases hr : (fetchTransactionWithBackoff (fetch s.signature) 1).result with t | msg
    · rcases t with _ | t
      · have hso : signatureOutcome fetch w s = none := by
          simp [signatureOutcome, hr]
        rw [List.filterMap_cons, hso] at h100
        have hrec := ih acc h h100
        dsimp only
        simp only [List.length_cons]
        omega
      · have hso : signatureOutcome fetch w s = some (normalize t w s) := by
          simp [signatureOutcome, hr]
        rw [List.filterMap_cons, hso] at h100
        dsimp only
        by_cases h2 : 100 ≤ (acc ++ [normalize t w s]).length
        · rw [if_pos h2]
          simp
        · rw [if_neg h2]
          have h3 : (acc ++ [normalize t w s]).length < 100 := by omega
          have h4 : 100 ≤ (acc ++ [normalize t w s]).length +
              (pre'.filterMap (signatureOutcome fetch w)).length := by
            simp at h100 ⊢
            omega
          have hrec := ih _ h3 h4
          simp only [List.length_cons]
          omega
    · have hso : signatureOutcome fetch w s = none := by
        simp [signatureOutcome, hr]
      rw [List.filterMap_cons, hso] at h100
      have hrec := ih acc h h100
      dsimp only
      simp only [List.length_cons]
      omega

theorem processSignatures_congr (f1 f2 : String → Nat → FetchResult RawTransaction)
    (w : String) (sigs : List SignatureInfo)
    (hf : ∀ s ∈ sigs, f1 s.signature = f2 s.signature) :
    ∀ acc, processSignatures f1 w sigs acc = processSignatures f2 w sigs acc := by
  induction sigs with
  | nil => intro acc; rfl
  | cons s rest ih =>
    intro acc
    have hs : f1 s.signature = f2 s.signature := hf s (by simp)
    have ih' : ∀ acc, processSignatures f1 w rest acc = processSignatures f2 w rest acc :=
      ih (fun s' hs' => hf s' (by simp [hs']))
    rw [processSignatures.eq_2, processSignatures.eq_2, hs]
    simp only [ih']


/-- Helper: when every detail-fetch attempt rejects with the
version-not-supported message, the backoff run from attempt 1 makes exactly
ten fetch attempts, sleeps 500, 1000, 2000, 4000, 8000 ms and then five
times 16000 ms, and returns `null`. -/
theorem backoff_version_exhausts (fetch : Nat → FetchResult RawTransaction)
    (h : ∀ n, fetch n = FetchResult.err versionNotSupportedMsg) :
    fetchTransactionWithBackoff fetch 1 =
      ⟨BackoffOutcome.value none, [1, 2, 3, 4, 5, 6, 7, 8, 9, 10],
        [500, 1000, 2000, 4000, 8000, 16000, 16000, 16000, 16000, 16000]⟩ := by
  have hfe : fetch = alwaysVersionErr := funext h
  subst hfe
  decide

/-- C1, counterexample: with the version error on every attempt,
`fetchTransactionWithBackoff` performs 10 detail-fetch attempts, not the 11
the claim states. -/
theorem claim_C1_counterexample :
    (fetchTransactionWithBackoff alwaysVersionErr 1).fetched.length = 10 ∧
    ¬ (fetchTransactionWithBackoff alwaysVersionErr 1).fetched.length = 11 := by
  decide

/-- C1, amended: for every signature whose detail fetch fails with the
version-not-supported error on every attempt, `fetchTransactionWithBackoff`
called with attempt 1 performs exactly 10 fetch attempts (the initial attempt
counts toward the 10-attempt cap), sleeping after each failed attempt with
delays 500, 1000, 2000, 4000, 8000, 16000, 16000, 16000, 16000, 16000 ms in
that order, and finally returns `null`. -/
theorem claim_C1_amended (fetch : Nat → FetchResult RawTransaction)
    (h : ∀ n, fetch n = FetchResult.err versionNotSupportedMsg) :
    fetchTransactionWithBackoff fetch 1 =
      ⟨BackoffOutcome.value none, [1, 2, 3, 4, 5, 6, 7, 8, 9, 10],
        [500, 1000, 2000, 4000, 8000, 16000, 16000, 16000, 16000, 16000]⟩ :=
  backoff_version_exhausts fetch h

/-- C1, witness: the amended statement at the concrete always-failing
oracle. -/
theorem claim_C1_witness :
    fetchTransactionWithBackoff alwaysVersionErr 1 =
      ⟨BackoffOutcome.value none, [1, 2, 3, 4, 5, 6, 7, 8, 9, 10],
        [500, 1000, 2000, 4000, 8000, 16000, 16000, 16000, 16000, 16000]⟩ :=
  claim_C1_amended alwaysVersionErr (fun _ => rfl)

/-- C2: a detail-fetch error is retried (one sleep of the computed delay,
then recursion with attempt + 1) if and only if its message contains the
literal version-not-supported substring or the literal substring "429"; any
other error is propagated immediately with zero further fetches and zero
sleeps. -/
theorem claim_C2_retry_iff (fetch : Nat → FetchResult RawTransaction)
    (attempt : Nat) (msg : String) (_h1 : 1 ≤ attempt) (h10 : attempt ≤ 10)
    (hf : fetch attempt = FetchResult.err msg) :
    (retriable msg = (includes msg versionNotSupportedMsg || includes msg "429")) ∧
    (retriable msg = true →
      fetchTransactionWithBackoff fetch attempt =
        ⟨(fetchTransactionWithBackoff fetch (attempt + 1)).result,
          attempt :: (fetchTransactionWithBackoff fetch (attempt + 1)).fetched,
          backoffDelay attempt ::
            (fetchTransactionWithBackoff fetch (attempt + 1)).sleeps⟩) ∧
    (retriable msg = false →
      fetchTransactionWithBackoff fetch attempt =
        ⟨BackoffOutcome.thrown msg, [attempt], []⟩) :=
  ⟨rfl, fun hm => fetch_backoff_retry h10 hf hm,
    fun hm => fetch_backoff_throw h10 hf hm⟩

/-- C2, witness: the non-retriable message "boom" at attempt 1 is thrown
with exactly one fetch and no sleep. -/
theorem claim_C2_witness :
    retriable "boom" = false ∧
    fetchTransactionWithBackoff sampleBoomFetch 1 =
      ⟨BackoffOutcome.thrown "boom", [1], []⟩ :=
  ⟨by decide,
    (claim_C2_retry_iff sampleBoomFetch 1 "boom" (by decide) (by decide)
      rfl).2.2 (by decide)⟩

/-- C5: when the detail fetch rejects with 429-classified errors on
attempts 1 and 2 and succeeds on attempt 3, `fetchTransactionWithBackoff`
sleeps exactly twice, 500 ms then 1000 ms, and returns the transaction of
attempt 3. -/
theorem claim_C5_429_recovery (fetch : Nat → FetchResult RawTransaction)
    (m1 m2 : String) (t : RawTransaction)
    (h1 : fetch 1 = FetchResult.err m1) (hm1 : includes m1 "429" = true)
    (h2 : fetch 2 = FetchResult.err m2) (hm2 : includes m2 "429" = true)
    (h3 : fetch 3 = FetchResult.ok (some t)) :
    fetchTransactionWithBackoff fetch 1 =
      ⟨BackoffOutcome.value (some t), [1, 2, 3], [500, 1000]⟩ := by
  have r1 : retriable m1 = true := by simp [retriable, hm1]
  have r2 : retriable m2 = true := by simp [retriable, hm2]
  rw [fetch_backoff_retry (by norm_num) h1 r1,
    fetch_backoff_retry (by norm_num) h2 r2,
    fetch_backoff_ok (by norm_num) h3]
  norm_num [backoffDelay]

/-- C5, witness: the concrete oracle failing twice with "429" then
succeeding. -/
theorem claim_C5_witness :
    fetchTransactionWithBackoff sample429Fetch 1 =
      ⟨BackoffOutcome.value (some sampleRaw), [1, 2, 3], [500, 1000]⟩ :=
  claim_C5_429_recovery sample429Fetch "429" "429" sampleRaw rfl (by decide)
    rfl (by decide) rfl

/-- C8: for every attempt number n ≥ 1 the backoff delay equals
min(500 · 2^(n−1), 16000): exactly 500 · 2^(n−1) for n ≤ 5 and 16000 for
n ≥ 6; and the first sleep of a retried attempt n is exactly that delay. -/
theorem claim_C8_delay_formula (n : Nat) (h : 1 ≤ n) :
    backoffDelay n = min (500 * 2 ^ (n - 1)) 16000 ∧
    (n ≤ 5 → backoffDelay n = 500 * 2 ^ (n - 1)) ∧
    (6 ≤ n → backoffDelay n = 16000) ∧
    (∀ fetch : Nat → FetchResult RawTransaction, ∀ msg, n ≤ 10 →
      fetch n = FetchResult.err msg → retriable msg = true →
      (fetchTransactionWithBackoff fetch n).sleeps.head? =
        some (min (500 * 2 ^ (n - 1)) 16000)) := by
  refine ⟨rfl, ?_, ?_, ?_⟩
  · intro h5
    have hle : 500 * 2 ^ (n - 1) ≤ 16000 := by
      interval_cases n <;> norm_num
    simp [backoffDelay, Nat.min_eq_left hle]
  · intro h6
    have h32 : 32 ≤ 2 ^ (n - 1) := by
      calc 32 = 2 ^ 5 := by norm_num
        _ ≤ 2 ^ (n - 1) := Nat.pow_le_pow_right (by norm_num) (by omega)
    have hge : 16000 ≤ 500 * 2 ^ (n - 1) := by
      calc 16000 = 500 * 32 := by norm_num
        _ ≤ 500 * 2 ^ (n - 1) := Nat.mul_le_mul_left 500 h32
    simp [backoffDelay, Nat.min_eq_right hge]
  · intro fetch msg h10 hf hm
    rw [fetch_backoff_retry h10 hf hm]
    rfl

/-- C8, witness: the formula evaluated at n = 9 (capped) and the sleep of
a concrete retried attempt 1. -/
theorem claim_C8_witness :
    backoffDelay 9 = 16000 ∧
    (fetchTransactionWithBackoff sample429Fetch 1).sleeps.head? =
      some (min (500 * 2 ^ (1 - 1)) 16000) :=
  ⟨(claim_C8_delay_formula 9 (by decide)).2.2.1 (by decide),
    (claim_C8_delay_formula 1 (by decide)).2.2.2 sample429Fetch "429"
      (by decide) rfl (by decide)⟩


/-- C4: for every wallet address failing public-key validation,
`getTransactions` fails with the invalid-address error and issues zero
listing calls and zero detail-fetch calls. -/
theorem claim_C4_invalid_address (isValid : String → Bool)
    (listOutcome : Except String (List SignatureInfo))
    (fetch : String → Nat → FetchResult RawTransaction) (w : String)
    (h : isValid w = false) :
    getTransactions isValid listOutcome fetch w =
      (Except.error GetTransactionsError.invalidAddress,
        ⟨0, ⟨[], [], [], 0⟩⟩) := by
  simp [getTransactions, h]

/-- C4, witness: a concrete always-false validator. -/
theorem claim_C4_witness :
    getTransactions (fun _ => false) (Except.ok [⟨"a"⟩]) fetchAllOk "bad" =
      (Except.error GetTransactionsError.invalidAddress,
        ⟨0, ⟨[], [], [], 0⟩⟩) :=
  claim_C4_invalid_address (fun _ => false) (Except.ok [⟨"a"⟩]) fetchAllOk
    "bad" rfl

/-- C9: the result sequence of `getTransactions` is exactly the normalized
records of the successfully fetched signatures, in listing order, truncated
at the 100-record cap. -/
theorem claim_C9_order (isValid : String → Bool)
    (fetch : String → Nat → FetchResult RawTransaction) (w : String)
    (sigs : List SignatureInfo) (hvalid : isValid w = true) :
    (getTransactions isValid (Except.ok sigs) fetch w).1 =
      Except.ok ((sigs.filterMap (signatureOutcome fetch w)).take 100) := by
  simp [getTransactions, hvalid]
  have h := processSignatures_results fetch w sigs [] (by norm_num)
  simpa using h

/-- C9, witness: the order characterization at a concrete two-signature
listing. -/
theorem claim_C9_witness :
    (getTransactions (fun _ => true) (Except.ok [⟨"a"⟩, ⟨"b"⟩]) fetchAllOk
        "w").1 =
      Except.ok
        (([⟨"a"⟩, ⟨"b"⟩].filterMap (signatureOutcome fetchAllOk "w")).take
          100) :=
  claim_C9_order (fun _ => true) fetchAllOk "w" [⟨"a"⟩, ⟨"b"⟩] rfl

/-- C7: a per-signature failure is caught and logged and the loop
continues with the identical result for the remaining signatures, while an
error from the one signature-listing call propagates as the
signature-fetch-failed error, aborting the whole operation with no signature
processed. -/
theorem claim_C7_propagation (fetch : String → Nat → FetchResult RawTransaction)
    (isValid : String → Bool) (w : String) (s : SignatureInfo)
    (rest : List SignatureInfo) (acc : List SimplifiedTransaction)
    (msg e : String)
    (hthrow : (fetchTransactionWithBackoff (fetch s.signature) 1).result =
      BackoffOutcome.thrown msg)
    (hvalid : isValid w = true) :
    (processSignatures fetch w (s :: rest) acc).1 =
      (processSignatures fetch w rest acc).1 ∧
    (processSignatures fetch w (s :: rest) acc).2.caught =
      (s.signature, msg) :: (processSignatures fetch w rest acc).2.caught ∧
    getTransactions isValid (Except.error e) fetch w =
      (Except.error GetTransactionsError.signatureFetchFailed,
        ⟨1, ⟨[], [], [], 0⟩⟩) := by
  refine ⟨?_, ?_, ?_⟩
  · rw [processSignatures.eq_2, hthrow]
  · rw [processSignatures.eq_2, hthrow]
  · simp [getTransactions, hvalid]

/-- C7, witness: a concrete throwing oracle and a concrete listing
failure. -/
theorem claim_C7_witness :
    ((processSignatures (fun _ _ => FetchResult.err "boom") "w"
        [⟨"a"⟩, ⟨"b"⟩] []).1 =
      (processSignatures (fun _ _ => FetchResult.err "boom") "w" [⟨"b"⟩] []).1) ∧
    getTransactions (fun _ => true) (Except.error "neterr")
        (fun _ _ => FetchResult.err "boom") "w" =
      (Except.error GetTransactionsError.signatureFetchFailed,
        ⟨1, ⟨[], [], [], 0⟩⟩) :=
  ⟨(claim_C7_propagation (fun _ _ => FetchResult.err "boom") (fun _ => true)
      "w" ⟨"a"⟩ [⟨"b"⟩] [] "boom" "neterr" (by decide) rfl).1,
    (claim_C7_propagation (fun _ _ => FetchResult.err "boom") (fun _ => true)
      "w" ⟨"a"⟩ [⟨"b"⟩] [] "boom" "neterr" (by decide) rfl).2.2⟩

/-- C3: the result sequence of `getTransactions` never exceeds 100
records, and once the first 100 normalized records are collected within a
prefix of the listing, the loop consumes no signature beyond that prefix. -/
theorem claim_C3_cap (isValid : String → Bool)
    (fetch : String → Nat → FetchResult RawTransaction) (w : String)
    (sigs : List SignatureInfo) (res : List SimplifiedTransaction)
    (tr : RequestTrace) (hvalid : isValid w = true)
    (hout : getTransactions isValid (Except.ok sigs) fetch w =
      (Except.ok res, tr)) :
    res.length ≤ 100 ∧
    (∀ pre post, sigs = pre ++ post →
      100 ≤ (pre.filterMap (signatureOutcome fetch w)).length →
      tr.loopTrace.processed ≤ pre.length) := by
  have h := hout
  simp [getTransactions, hvalid, Prod.ext_iff] at h
  obtain ⟨hres, htr⟩ := h
  constructor
  · rw [← hres, processSignatures_results fetch w sigs [] (by norm_num)]
    simp [List.length_take]
  · intro pre post hsplit h100
    subst hsplit
    rw [← htr]
    exact processSignatures_processed fetch w post pre [] (by norm_num)
      (by simpa using h100)

/-- Helper for the C3 witness: under the all-succeeding oracle every
listed signature contributes one normalized record. -/
theorem filterMap_allOk_length (l : List SignatureInfo) :
    (l.filterMap (signatureOutcome fetchAllOk "w")).length = l.length := by
  have hf : ∀ s, signatureOutcome fetchAllOk "w" s =
      some (normalize sampleRaw "w" s) := fun _ => rfl
  induction l with
  | nil => rfl
  | cons a t ih => rw [List.filterMap_cons, hf]; simp [ih]

/-- C3, witness: 101 listed signatures, all succeeding: at most 100
records and at most 100 signatures consumed. -/
theorem claim_C3_witness :
    sampleLoop.1.length ≤ 100 ∧
    (⟨1, sampleLoop.2⟩ : RequestTrace).loopTrace.processed ≤
      samplePre.length := by
  have h := claim_C3_cap (fun _ => true) fetchAllOk "w"
    (samplePre ++ [⟨"extra"⟩]) sampleLoop.1 ⟨1, sampleLoop.2⟩ rfl
    (by simp [getTransactions, sampleLoop])
  refine ⟨h.1, h.2 samplePre [⟨"extra"⟩] rfl ?_⟩
  rw [filterMap_allOk_length]
  simp [samplePre]

/-- C10: a detail fetch that resolves to `null` on attempt 1 makes
`fetchTransactionWithBackoff` return `null` immediately with one fetch and
zero sleeps; the loop appends no record, logs nothing, continues with the
next signature, and its output is identical to that under an oracle whose
fetches for this signature always fail with the version error until
exhaustion. -/
theorem claim_C10_null_skip (fetch : String → Nat → FetchResult RawTransaction)
    (w : String) (s : SignatureInfo) (rest : List SignatureInfo)
    (acc : List SimplifiedTransaction) (g : Nat → FetchResult RawTransaction)
    (hnull : fetch s.signature 1 = FetchResult.ok none)
    (hg : ∀ n, g n = FetchResult.err versionNotSupportedMsg)
    (hdisj : ∀ s' ∈ rest, s'.signature ≠ s.signature) :
    fetchTransactionWithBackoff (fetch s.signature) 1 =
      ⟨BackoffOutcome.value none, [1], []⟩ ∧
    (processSignatures fetch w (s :: rest) acc).1 =
      (processSignatures fetch w rest acc).1 ∧
    (processSignatures fetch w (s :: rest) acc).2.caught =
      (processSignatures fetch w rest acc).2.caught ∧
    (processSignatures (fun sig => if sig = s.signature then g else fetch sig)
        w (s :: rest) acc).1 =
      (processSignatures fetch w (s :: rest) acc).1 := by
  have hrun : fetchTransactionWithBackoff (fetch s.signature) 1 =
      ⟨BackoffOutcome.value none, [1], []⟩ :=
    fetch_backoff_ok (by norm_num) hnull
  have hres : (fetchTransactionWithBackoff (fetch s.signature) 1).result =
      BackoffOutcome.value none := by rw [hrun]
  have hcongr : processSignatures
      (fun sig => if sig = s.signature then g else fetch sig) w rest acc =
      processSignatures fetch w rest acc :=
    processSignatures_congr _ _ w rest
      (fun s' hs' => if_neg (hdisj s' hs')) acc
  refine ⟨hrun, ?_, ?_, ?_⟩
  · rw [processSignatures.eq_2, hres]
  · rw [processSignatures.eq_2, hres]
  · have hgres : (fetchTransactionWithBackoff g 1).result =
        BackoffOutcome.value none := by
      rw [backoff_version_exhausts g hg]
    rw [processSignatures.eq_2, processSignatures.eq_2]
    have hasg : (if s.signature = s.signature then g else fetch s.signature) =
        g := if_pos rfl
    rw [hasg, hgres, hres, hcongr]

/-- C10, witness: a concrete `null`-resolving oracle. -/
theorem claim_C10_witness :
    fetchTransactionWithBackoff (fetchAllNull "a") 1 =
      ⟨BackoffOutcome.value none, [1], []⟩ ∧
    (processSignatures fetchAllNull "w" [⟨"a"⟩, ⟨"b"⟩] []).1 =
      (processSignatures fetchAllNull "w" [⟨"b"⟩] []).1 := by
  have h := claim_C10_null_skip fetchAllNull "w" ⟨"a"⟩ [⟨"b"⟩] []
    alwaysVersionErr rfl (fun _ => rfl) (by decide)
  exact ⟨h.1, h.2.1⟩

/-- C6, counterexample: a raw transaction carrying block time 0 yields a
`null` timestamp, not the ISO-8601 rendering of 0 ms, so the claim as stated
fails. -/
theorem claim_C6_counterexample :
    sampleRawTime0.blockTime = some 0 ∧
    (normalize sampleRawTime0 "w" ⟨"sig"⟩).timestamp ≠
      some (jsToISOString (0 * 1000)) ∧
    (normalize sampleRawTime0 "w" ⟨"sig"⟩).timestamp = none := by
  decide

/-- C6, amended: the normalized record's timestamp is `null` exactly when
the raw transaction carries no block time or carries block time 0 (a falsy
value); when it carries block time T > 0 the timestamp is the ISO-8601
rendering of T · 1000 ms since the epoch. -/
theorem claim_C6_amended (t : RawTransaction) (w : String)
    (s : SignatureInfo) :
    ((normalize t w s).timestamp = none ↔
      (t.blockTime = none ∨ t.blockTime = some 0)) ∧
    (∀ T, t.blockTime = some T → 0 < T →
      (normalize t w s).timestamp = some (jsToISOString (T * 1000))) := by
  constructor
  · rcases ht : t.blockTime with _ | T
    · simp [normalize, ht]
    · by_cases h0 : T = 0
      · simp [normalize, ht, h0]
      · simp [normalize, ht, h0]
  · intro T hT h0
    have hne : ¬ T = 0 := by omega
    simp [normalize, hT, hne]

/-- C6, witness: the timestamp of the concrete sample transaction with
block time 1700000000. -/
theorem claim_C6_witness :
    (normalize sampleRaw "w" ⟨"s"⟩).timestamp =
      some (jsToISOString (1700000000 * 1000)) :=
  (claim_C6_amended sampleRaw "w" ⟨"s"⟩).2 1700000000 rfl (by norm_num)

end TxFetch
